import Mathlib

/-
  Verification development for the CubeAI corpus-driven response generator.

  The embedding below follows the generation pipeline source file
  (the "Option C" server: loadBrain, buildMarkovFromExamples, generateMarkov,
  tokenize/keywordScore, candidate generators, scoreCandidate, detectIntent,
  createAndRankCandidates) plus the "Turbo-V3" variant of generateMarkov from
  the earlier server file.

  Modelling conventions:
  * JavaScript objects whose keys are iterated in insertion order (the brain's
    `intents` map, `keywords_global`, and the Markov `Map`) are modelled as
    association lists, preserving insertion order.
  * A Markov context key is the JS string `tok1 + "\u0001" + tok2`; tokens are
    produced by whitespace splitting and so never contain the `\u0001`
    separator, hence the join is injective and keys are modelled as the token
    list itself (`Key := List String`).  The JS test `key.startsWith("^START")`
    on a joined key is equivalent to its first token starting with "^START",
    and `key.startsWith("^START\u0001")` to its first token being exactly
    "^START"; the models below use those equivalent forms.
  * `Math.random()` is modelled as a stream `rs : Nat → ℚ` of draws in [0, 1),
    consumed left to right exactly where the source calls `Math.random()`;
    functions thread the current stream position `ix`.
  * JS number arithmetic in the candidate scorer is modelled over ℚ.
  * `JSON.parse` of the corpus bytes is modelled as an `Option RawDoc` input:
    `none` is the exception path of the `try`/`catch` in `loadBrain`
    (malformed bytes), `some d` the parsed document.  Byte-identical inputs
    parse to the same `RawDoc`.
-/

namespace CubeAI

/-! ### Tokenization helpers -/

/-- One step of `String.replace(/\s+/g, " ")`: collapse every maximal run of
whitespace to a single space.  The boolean records whether the previous
character was part of a whitespace run. -/
def collapseWsAux : Bool → List Char → List Char
  | _, [] => []
  | inRun, c :: rest =>
    if c.isWhitespace then
      if inRun then collapseWsAux true rest
      else ' ' :: collapseWsAux true rest
    else c :: collapseWsAux false rest

/-- JS `String.prototype.trim()`: drop leading and trailing whitespace. -/
def trimChars (l : List Char) : List Char :=
  ((l.dropWhile Char.isWhitespace).reverse.dropWhile Char.isWhitespace).reverse

/-- JS `String.prototype.trim()` on strings. -/
def jsTrim (s : String) : String := String.mk (trimChars s.toList)

/-- JS `split(" ")`: split a character list on every single space. -/
def splitOnSpace : List Char → List (List Char)
  | [] => [[]]
  | c :: rest =>
    let r := splitOnSpace rest
    if c = ' ' then [] :: r
    else (c :: r.headD []) :: r.tail

/-- The tokenization used by `feed` and `generateMarkov`:
`text.replace(/\s+/g, " ").trim().split(" ").filter(Boolean)`. -/
def jsWsTokens (s : String) : List String :=
  let collapsed := collapseWsAux false s.toList
  let trimmed := trimChars collapsed
  ((splitOnSpace trimmed).map String.mk).filter (fun t => t ≠ "")

/-- JS `String.prototype.toLowerCase()`. -/
def jsToLower (s : String) : String := String.mk (s.toList.map Char.toLower)

/-- Whether `needle` occurs contiguously in `hay` (JS `includes` on char lists). -/
def infixCheck (needle : List Char) : List Char → Bool
  | [] => needle.isEmpty
  | c :: rest => needle.isPrefixOf (c :: rest) || infixCheck needle rest

/-- JS `hay.includes(needle)`. -/
def strIncludes (hay needle : String) : Bool := infixCheck needle.toList hay.toList

/-- Split a character list on every whitespace character. -/
def splitOnWs : List Char → List (List Char)
  | [] => [[]]
  | c :: rest =>
    let r := splitOnWs rest
    if c.isWhitespace then [] :: r
    else (c :: r.headD []) :: r.tail

/-- `candidate.split(/\s+/).filter(Boolean)`: split on whitespace runs,
dropping empty fragments (splitting on every whitespace character and dropping
empties yields the same non-empty fragments). -/
def wsSplit (s : String) : List String :=
  ((splitOnWs s.toList).map String.mk).filter (fun t => t ≠ "")

/-- The scorer's `tokenize`:
`String(s).toLowerCase().replace(/[^\w\s]/g, " ").split(/\s+/).filter(Boolean)`.
`\w` is `[A-Za-z0-9_]`. -/
def tokenize (s : String) : List String :=
  wsSplit (String.mk (s.toList.map fun c0 =>
    let c := c0.toLower
    if c.isAlphanum || c = '_' || c.isWhitespace then c else ' '))

/-! ### Data model -/

/-- One intent of the brain; every missing field defaults to the empty list,
mirroring the `intent.examples || []` style accesses in the source. -/
structure Intent where
  triggers : List String := []
  keywords : List String := []
  examples : List String := []
  responses : List String := []
deriving DecidableEq, Repr

/-- The normalized knowledge base: intents in insertion order. -/
structure Brain where
  intents : List (String × Intent) := []
deriving DecidableEq, Repr

/-- A context key: the tokens joined with `"\u0001"` in the JS map. -/
abbrev Key := List String

/-- The JS `Map` holding the transitions, in insertion order. -/
abbrev MarkovMap := List (Key × List String)

/-- `map.get(key)` (first and only binding of the key). -/
def mapGet : MarkovMap → Key → Option (List String)
  | [], _ => none
  | (k', v) :: rest, k => if k = k' then some v else mapGet rest k

/-- `if (!map.has(key)) map.set(key, []); map.get(key).push(next)`:
append `v` to the key's list, inserting the key at the end if absent. -/
def mapPush : MarkovMap → Key → String → MarkovMap
  | [], k, v => [(k, [v])]
  | (k', vs) :: rest, k, v =>
    if k = k' then (k', vs ++ [v]) :: rest else (k', vs) :: mapPush rest k v

/-- The next-token list stored under a key (empty when absent). -/
def getList (m : MarkovMap) (k : Key) : List String := (mapGet m k).getD []

/-- The Markov model: fixed order plus the transition map. -/
structure MarkovModel where
  order : Nat
  map : MarkovMap
deriving DecidableEq, Repr

/-! ### Model builder (`buildMarkovFromExamples`) -/

/-- A training sequence padded with the sentinels:
`["^START", ...words, "^END"]`. -/
def padded (ws : List String) : List String := "^START" :: ws ++ ["^END"]

/-- The window loop of `feed`: for every 3 consecutive tokens `a b c` of the
padded sequence, push `c` under the context `[a, b]`
(`for (let i = 0; i <= pad.length - order - 1; i++)` with `order = 2`). -/
def feedList (m : MarkovMap) : List String → MarkovMap
  | a :: b :: c :: rest => feedList (mapPush m [a, b] c) (b :: c :: rest)
  | _ => m

/-- `feed(text)`: tokenize, skip empty token lists, then record all windows of
the padded sequence. -/
def feed (m : MarkovMap) (text : String) : MarkovMap :=
  let words := jsWsTokens text
  if words = [] then m else feedList m (padded words)

/-- `buildMarkovFromExamples(brain)`: feed all examples of every intent, and
the intent's responses only when it has no examples; order is fixed at 2. -/
def buildMarkovFromExamples (brain : Brain) : MarkovModel :=
  let map := brain.intents.foldl
    (fun m p =>
      let m1 := p.2.examples.foldl feed m
      if p.2.examples = [] then p.2.responses.foldl feed m1 else m1)
    []
  { order := 2, map := map }

/-- The texts fed into the model, in feeding order: for each intent, its
examples, then its responses when the examples are empty. -/
def trainTexts (brain : Brain) : List String :=
  brain.intents.flatMap fun p =>
    p.2.examples ++ (if p.2.examples = [] then p.2.responses else [])

/-! ### Randomness -/

/-- `Math.floor(Math.random() * n)` for a draw `r` in [0, 1). -/
def jsIndex (r : ℚ) (n : Nat) : Nat := (Int.toNat ⌊r * n⌋)

/-- `arr[Math.floor(Math.random() * arr.length)]` for string arrays; the
default is never reached for draws in [0, 1) on a non-empty array. -/
def jsChoose (l : List String) (r : ℚ) : String := l.getD (jsIndex r l.length) ""

/-- `arr[Math.floor(Math.random() * arr.length)]` for key arrays. -/
def jsChooseKey (l : List Key) (r : ℚ) : Key := l.getD (jsIndex r l.length) []

/-! ### Markov generator of the pipeline server (`generateMarkov`) -/

/-- `[...map.keys()]`. -/
def keysOf (m : MarkovMap) : List Key := m.map Prod.fst

/-- `key.startsWith("^START")` on the joined key: its first token starts with
`"^START"`. -/
def keyStartsWithStart (k : Key) : Bool :=
  match k with
  | [] => false
  | t :: _ => "^START".toList.isPrefixOf t.toList

/-- `[...map.keys()].filter(k => k.startsWith("^START"))`. -/
def startKeys002 (m : MarkovMap) : List Key := (keysOf m).filter keyStartsWithStart

/-- The start-key selection of the pipeline server's `generateMarkov`:
with at least `order` prompt tokens the key is the last `order` tokens
(with no membership check); otherwise a random `^START`-prefixed key, or a
random key of the whole map when none starts with `^START`. -/
def startKey002 (m : MarkovMap) (order : Nat) (tokens : List String) (r : ℚ) : Key :=
  if order ≤ tokens.length then tokens.drop (tokens.length - order)
  else
    let sk := startKeys002 m
    if sk ≠ [] then jsChooseKey sk r else jsChooseKey (keysOf m) r

/-- How many `Math.random()` draws the start-key selection consumes. -/
def startConsumes002 (order : Nat) (tokens : List String) : Nat :=
  if order ≤ tokens.length then 0 else 1

/-- The generation loop: look up the current key, pick a uniformly random next
token, stop on a missing/empty entry, on a falsy pick or on `"^END"`, and
slide the context window (`key.split(sep).slice(1)` plus the pick). -/
def genLoop (m : MarkovMap) : Nat → Key → (Nat → ℚ) → Nat → List String × Nat
  | 0, _, _, ix => ([], ix)
  | fuel + 1, key, rs, ix =>
    match mapGet m key with
    | none => ([], ix)
    | some choices =>
      if choices = [] then ([], ix)
      else
        let pick := jsChoose choices (rs ix)
        if pick = "" ∨ pick = "^END" then ([], ix + 1)
        else
          let r := genLoop m fuel (key.drop 1 ++ [pick]) rs (ix + 1)
          (pick :: r.1, r.2)

/-- The pipeline server's `generateMarkov`, returning the emitted tokens
(before joining with spaces).  An empty map short-circuits to no output. -/
def generateMarkovTokens (M : MarkovModel) (prompt : String) (maxTokens : Nat)
    (rs : Nat → ℚ) (ix : Nat) : List String × Nat :=
  if M.map = [] then ([], ix)
  else
    let tokens := jsWsTokens prompt
    let key := startKey002 M.map M.order tokens (rs ix)
    let ix1 := ix + startConsumes002 M.order tokens
    genLoop M.map maxTokens key rs ix1

/-- The pipeline server's `generateMarkov` (`out.join(" ")`). -/
def generateMarkov (M : MarkovModel) (prompt : String) (maxTokens : Nat)
    (rs : Nat → ℚ) (ix : Nat) : String × Nat :=
  let r := generateMarkovTokens M prompt maxTokens rs ix
  (String.intercalate " " r.1, r.2)

/-! ### Markov generator of the Turbo-V3 server (`generateMarkov`, earlier
file) -/

/-- `[...map.keys()].filter(k => k.startsWith("^START\u0001"))`: the first
token of the joined key is exactly `"^START"`. -/
def startKeysV3 (m : MarkovMap) : List Key :=
  (keysOf m).filter fun k => k.head? = some "^START"

/-- The Turbo-V3 start-key selection: the last `order` prompt tokens are used
only when that context is present in the map (`map.has(candidate)`),
otherwise a random `^START`-prefixed key (or any key when none). -/
def startKeyV3 (m : MarkovMap) (order : Nat) (tokens : List String) (r : ℚ) : Key :=
  let sk := startKeysV3 m
  if order ≤ tokens.length then
    let cand := tokens.drop (tokens.length - order)
    if (mapGet m cand).isSome then cand
    else if sk ≠ [] then jsChooseKey sk r else jsChooseKey (keysOf m) r
  else if sk ≠ [] then jsChooseKey sk r else jsChooseKey (keysOf m) r

/-- Draws consumed by the Turbo-V3 start-key selection. -/
def startConsumesV3 (m : MarkovMap) (order : Nat) (tokens : List String) : Nat :=
  if order ≤ tokens.length ∧ (mapGet m (tokens.drop (tokens.length - order))).isSome
  then 0 else 1

/-- The Turbo-V3 generation loop: as `genLoop` but with no falsy-pick check
(only `pick === "^END"` stops it). -/
def genLoopV3 (m : MarkovMap) : Nat → Key → (Nat → ℚ) → Nat → List String × Nat
  | 0, _, _, ix => ([], ix)
  | fuel + 1, key, rs, ix =>
    match mapGet m key with
    | none => ([], ix)
    | some choices =>
      if choices = [] then ([], ix)
      else
        let pick := jsChoose choices (rs ix)
        if pick = "^END" then ([], ix + 1)
        else
          let r := genLoopV3 m fuel (key.drop 1 ++ [pick]) rs (ix + 1)
          (pick :: r.1, r.2)

/-- Is the character one of `[.,!?;:]`? -/
def isPunctCh (c : Char) : Bool := c ∈ ['.', ',', '!', '?', ';', ':']

/-- `replace(/\s+([.,!?;:])/g, "$1")`: drop a whitespace run immediately
followed by punctuation.  `pending` is the whitespace run read so far. -/
def fixPunctAux : List Char → List Char → List Char
  | pending, [] => pending
  | pending, c :: rest =>
    if c.isWhitespace then fixPunctAux (pending ++ [c]) rest
    else if pending = [] then c :: fixPunctAux [] rest
    else if isPunctCh c then c :: fixPunctAux [] rest
    else pending ++ c :: fixPunctAux [] rest

/-- The whole punctuation-spacing cleanup. -/
def fixPunct (l : List Char) : List Char := fixPunctAux [] l

/-- The Turbo-V3 `generateMarkov`: fixed fallback strings for an empty map and
an empty generated sentence, punctuation cleanup on the joined output. -/
def generateMarkovV3 (M : MarkovModel) (prompt : String) (maxTokens : Nat)
    (rs : Nat → ℚ) (ix : Nat) : String × Nat :=
  if M.map = [] then ("I don\u0027t know yet — try web search.", ix)
  else
    let tokens := jsWsTokens prompt
    let key := startKeyV3 M.map M.order tokens (rs ix)
    let ix1 := ix + startConsumesV3 M.map M.order tokens
    let r := genLoopV3 M.map maxTokens key rs ix1
    let sentence := jsTrim (String.mk (fixPunct (String.intercalate " " r.1).toList))
    if sentence = "" then ("I don\u0027t have enough data to compose a reply yet.", r.2)
    else (sentence, r.2)

/-! ### Model store (`loadBrain`) -/

/-- A successfully parsed corpus document: the optional `brain` wrapper field,
the whole document read as a brain (`RAW.brain || RAW`), and the optional
`keywords_global` map. -/
structure RawDoc where
  brainField : Option Brain
  asBrain : Brain
  keywords_global : Option (List (String × List String))
deriving DecidableEq, Repr

/-- The module-level state of the pipeline server:
`RAW`, `BRAIN`, `GLOBAL_KEYWORDS`, `MARKOV`. -/
structure St where
  RAW : Option RawDoc
  BRAIN : Brain
  GLOBAL_KEYWORDS : List (String × List String)
  MARKOV : MarkovModel
deriving DecidableEq, Repr

/-- The state after the catch branch of `loadBrain` (also the initial values of
the module globals). -/
def emptySt : St :=
  { RAW := none, BRAIN := { intents := [] }, GLOBAL_KEYWORDS := [],
    MARKOV := { order := 2, map := [] } }

/-- `loadBrain()`: on a parse success replace the whole snapshot and rebuild
the model; on a parse failure (modelled as `none`) log the failure (the
returned boolean) and reset every global to its empty value. -/
def loadBrain (parsed : Option RawDoc) (_prev : St) : St × Bool :=
  match parsed with
  | some d =>
    let brain := d.brainField.getD d.asBrain
    ({ RAW := some d, BRAIN := brain,
       GLOBAL_KEYWORDS := d.keywords_global.getD [],
       MARKOV := buildMarkovFromExamples brain }, false)
  | none => (emptySt, true)

/-! ### Keyword scoring and intent detection -/

/-- `Object.values(GLOBAL_KEYWORDS).flat()`. -/
def globalFlat (gk : List (String × List String)) : List String :=
  (gk.map Prod.snd).flatten

/-- `(BRAIN.intents || {})[intentName] || {}`. -/
def jsLookupIntent (b : Brain) (name : String) : Intent :=
  (b.intents.lookup name).getD {}

/-- `keywordScore(candidate, intentKeywords, globalKeywords)`: how many of the
(truthy) keywords occur, lower-cased, among the candidate's tokens. -/
def keywordScore (candidate : String) (intentKeywords globalKeywords : List String) : Nat :=
  let candSet := tokenize candidate
  (intentKeywords.filter fun k => k ≠ "" && candSet.contains (jsToLower k)).length
  + (globalKeywords.filter fun k => k ≠ "" && candSet.contains (jsToLower k)).length

/-- The per-intent score of `detectIntent`: +5 per matching (truthy) trigger,
+2 per matching intent keyword, +1 per matching global keyword; a match is a
substring of the lower-cased prompt `t`. -/
def intentScoreFull (st : St) (t : String) (intent : Intent) : Int :=
  5 * ((intent.triggers.filter fun trig =>
          trig ≠ "" && strIncludes t (jsToLower trig)).length : Int)
  + 2 * ((intent.keywords.filter fun k =>
          k ≠ "" && strIncludes t (jsToLower k)).length : Int)
  + ((globalFlat st.GLOBAL_KEYWORDS |>.filter fun k =>
          k ≠ "" && strIncludes t (jsToLower k)).length : Int)

/-- `detectIntent(prompt)`: scan the intents in insertion order keeping the
strictly best score, starting from `("fallback", -1)`. -/
def detectStep (st : St) (t : String) (acc : String × Int) (p : String × Intent) :
    String × Int :=
  let score := intentScoreFull st t p.2
  if acc.2 < score then (p.1, score) else acc

/-- `detectIntent(prompt)` (continued): fold `detectStep` over the intents. -/
def detectIntent (st : St) (prompt : String) : String :=
  (st.BRAIN.intents.foldl (detectStep st (jsToLower prompt)) ("fallback", (-1 : Int))).1

/-! ### Candidate scorer (`scoreCandidate`) -/

/-- The keyword-overlap part of `scoreCandidate`. -/
def kwScoreOf (st : St) (intentName candidate : String) : Nat :=
  keywordScore candidate (jsLookupIntent st.BRAIN intentName).keywords
    (globalFlat st.GLOBAL_KEYWORDS)

/-- `Math.max(a, b)` over ℚ. -/
def jsMax (a b : ℚ) : ℚ := if a ≤ b then b else a

/-- `Math.min(a, b)` over ℚ. -/
def jsMin (a b : ℚ) : ℚ := if a ≤ b then a else b

/-- `Math.max(0, Math.min(1, (L - 6) / 20))` with
`L = candidate.split(/\s+/).filter(Boolean).length`. -/
def lengthScoreOf (candidate : String) : ℚ :=
  let L := (wsSplit candidate).length
  jsMax 0 (jsMin 1 (((L : ℚ) - 6) / 20))

/-- `novel ? 1 : 0` with
`novel = candidate && !candidate.toLowerCase().includes(prompt.trim().toLowerCase())`. -/
def noveltyScoreOf (candidate prompt : String) : ℚ :=
  if candidate ≠ "" ∧ strIncludes (jsToLower candidate) (jsToLower (jsTrim prompt)) = false
  then 1 else 0

/-- `scoreCandidate(candidate, prompt, intentName)` with `r` the `Math.random()`
draw feeding the jitter `rand = r * 0.2`:
`kwScore * 2 + lengthScore * 1.5 + noveltyScore * 1 + rand`. -/
def scoreCandidate (st : St) (candidate prompt intentName : String) (r : ℚ) : ℚ :=
  (kwScoreOf st intentName candidate : ℚ) * 2
  + lengthScoreOf candidate * (3 / 2)
  + noveltyScoreOf candidate prompt * 1
  + r * (1 / 5)

/-! ### Candidate generators -/

/-- `capitalize(s)`. -/
def capitalize (s : String) : String :=
  match s.toList with
  | [] => ""
  | c :: rest => String.mk (c.toUpper :: rest)

/-- `[...new Set(l)]`: deduplicate keeping first occurrences in order. -/
def jsSetList (l : List String) : List String :=
  l.foldl (fun acc x => if acc.contains x then acc else acc ++ [x]) []

/-- Generator B, `templateJoiner(intentName, prompt)`: 1-3 templated sentences
from the intent's first keywords merged with global keywords. -/
def templateJoiner (st : St) (intentName : String) : String :=
  let intent := jsLookupIntent st.BRAIN intentName
  let intentKeys := intent.keywords.take 6
  let globalKeys := (globalFlat st.GLOBAL_KEYWORDS).take 12
  let use := (jsSetList (intentKeys ++ globalKeys.take 6)).take 6
  if use = [] then ""
  else
    let first :=
      let j := String.intercalate ", " ((use.drop 1).take 2)
      capitalize (use.headD "") ++ " matters most: "
        ++ (if j = "" then use.headD "" else j) ++ "."
    let parts := [first]
    let parts := parts ++
      (if 3 ≤ use.length then
        ["Focus on " ++ String.intercalate " & " (use.take 2)
          ++ " and refine " ++ (use.getD 2 "") ++ "."]
       else [])
    let parts := parts ++
      (if 4 ≤ use.length then
        ["Small iterations: " ++ String.intercalate ", " (use.drop 3) ++ "."]
       else [])
    String.intercalate " " parts

/-- Generator C, `examplePlusContinue(intentName, prompt)`: a uniformly random
example of the intent plus a short Markov continuation seeded from
`example + " " + prompt`. -/
def examplePlusContinue (st : St) (intentName prompt : String)
    (rs : Nat → ℚ) (ix : Nat) : String × Nat :=
  let intent := jsLookupIntent st.BRAIN intentName
  let ex := intent.examples
  if ex = [] then ("", ix)
  else
    let pick := jsChoose ex (rs ix)
    let r := generateMarkov st.MARKOV (pick ++ " " ++ prompt) 20 rs (ix + 1)
    (jsTrim (pick ++ (if r.1 ≠ "" then "\n" ++ r.1 else "")), r.2)

/-- Generator D, `keywordSummary(intentName, prompt)`. -/
def keywordSummary (st : St) (intentName : String) : String :=
  let keys := (jsLookupIntent st.BRAIN intentName).keywords.take 6
  if keys = [] then ""
  else "Key points: " ++ String.intercalate ", " (keys.map jsToLower)
    ++ ". Ask me to expand on any of these."

/-! ### Pipeline (`createAndRankCandidates`) -/

/-- A labelled candidate before scoring. -/
abbrev Cand := String × String

/-- A scored candidate. -/
structure Scored where
  label : String
  text : String
  score : ℚ
deriving DecidableEq, Repr

/-- The result shape of `createAndRankCandidates`. -/
structure GenResult where
  intent : String
  candidates : List Scored
  chosenIndex : Nat
  chosen : String
deriving DecidableEq, Repr

/-- The `while (cands.length < 4)` filler loop; each iteration draws a coin for
the `"more"` suffix, runs a short Markov generation, and falls back to
`"Let me think about " + prompt`.  The loop adds one candidate per iteration,
so fuel 4 covers every reachable execution. -/
def fillCandidates (st : St) (prompt : String) :
    Nat → List Cand → (Nat → ℚ) → Nat → List Cand × Nat
  | 0, cands, _, ix => (cands, ix)
  | fuel + 1, cands, rs, ix =>
    if cands.length < 4 then
      let suffix := if rs ix > 1 / 2 then "more" else ""
      let g := generateMarkov st.MARKOV (prompt ++ " " ++ suffix) 16 rs (ix + 1)
      let filler := if g.1 ≠ "" then g.1 else "Let me think about " ++ prompt
      fillCandidates st prompt fuel (cands ++ [("filler", filler)]) rs g.2
    else (cands, ix)

/-- `cands.map((c, i) => ({..., score: scoreCandidate(...)}))`, drawing one
jitter per candidate in order. -/
def scoreAll (st : St) (prompt intent : String) :
    List Cand → (Nat → ℚ) → Nat → List Scored × Nat
  | [], _, ix => ([], ix)
  | c :: rest, rs, ix =>
    let s := scoreCandidate st c.2 prompt intent (rs ix)
    let r := scoreAll st prompt intent rest rs (ix + 1)
    ({ label := c.1, text := c.2, score := s } :: r.1, r.2)

/-- Stable descending insertion: `x` goes after the strictly higher-scoring
entries and before every entry whose score is not above its own, so an
earlier element keeps its place ahead of later equal-score elements. -/
def insertDesc (x : Scored) : List Scored → List Scored
  | [] => [x]
  | y :: rest => if x.score < y.score then y :: insertDesc x rest else x :: y :: rest

/-- `scored.sort((a, b) => b.score - a.score)`: a stable sort by descending
score (the unique stable result for this comparator). -/
def sortDesc : List Scored → List Scored
  | [] => []
  | x :: rest => insertDesc x (sortDesc rest)

/-- `Number(q.toFixed(3))`: round to 3 decimal places. -/
def round3 (q : ℚ) : ℚ := (⌊q * 1000 + 1 / 2⌋ : ℚ) / 1000

/-- `createAndRankCandidates(prompt, maxTokens)`: detect the intent, run the
four generators keeping the non-empty results, fill up to four candidates,
score, sort descending and return the top text. -/
def createAndRankCandidates (st : St) (prompt : String) (maxTokens : Nat)
    (rs : Nat → ℚ) (ix : Nat) : GenResult × Nat :=
  let intent := detectIntent st prompt
  let rA := generateMarkov st.MARKOV prompt (min 40 maxTokens) rs ix
  let cands : List Cand := if rA.1 ≠ "" then [("markov", rA.1)] else []
  let b := templateJoiner st intent
  let cands := cands ++ (if b ≠ "" then [("template", b)] else [])
  let rC := examplePlusContinue st intent prompt rs rA.2
  let cands := cands ++ (if rC.1 ≠ "" then [("example+cont", rC.1)] else [])
  let d := keywordSummary st intent
  let cands := cands ++ (if d ≠ "" then [("summary", d)] else [])
  let rF := fillCandidates st prompt 4 cands rs rC.2
  let rS := scoreAll st prompt intent rF.1 rs rF.2
  let sorted := sortDesc rS.1
  let candidates := (sorted.take 4).map fun s =>
    { label := s.label, text := s.text, score := round3 s.score }
  ({ intent := intent, candidates := candidates, chosenIndex := 0,
     chosen := ((candidates.head?).map Scored.text).getD "" }, rS.2)

/-! ### Concrete fixtures -/

/-- The scenario corpus of the spec:
`{"intents":{"greet":{"examples":["hello there friend","hello there world"]}}}`. -/
def greetBrain : Brain :=
  { intents := [("greet", { examples := ["hello there friend", "hello there world"] })] }

/-- The model built from `greetBrain`. -/
def greetModel : MarkovModel := buildMarkovFromExamples greetBrain

/-- A parsed corpus document wrapping `greetBrain`. -/
def greetDoc : RawDoc := { brainField := some greetBrain, asBrain := {}, keywords_global := none }

/-- The all-zero random stream (a legal sequence of `Math.random()` draws). -/
def rzero : Nat → ℚ := fun _ => 0

/-- A state with one intent that matches nothing in the prompt `"zzz"`. -/
def oneIntentSt : St :=
  { emptySt with BRAIN := { intents := [("greet", { triggers := ["hello"], keywords := ["hi"] })] } }

/-! ### Map and builder lemmas -/

lemma getList_mapPush (m : MarkovMap) (k' : Key) (v : String) (k : Key) :
    getList (mapPush m k' v) k =
      if k = k' then getList m k ++ [v] else getList m k := by
  induction m with
  | nil =>
    by_cases hk : k = k' <;> simp [mapPush, getList, mapGet, hk]
  | cons e rest ih =>
    obtain ⟨k0, vs⟩ := e
    by_cases h0 : k' = k0
    · subst h0
      by_cases hk : k = k' <;> simp [mapPush, getList, mapGet, hk]
    · by_cases hk : k = k0
      · subst hk
        have : ¬ k = k' := fun h => h0 (h.symm)
        simp [mapPush, getList, mapGet, h0, this]
      · simpa [mapPush, getList, mapGet, h0, hk] using ih

lemma mem_getList_feedList (m : MarkovMap) (p : List String) (k : Key) (t : String)
    (h : t ∈ getList (feedList m p) k) :
    t ∈ getList m k ∨ (k.length = 2 ∧ (k ++ [t]) <:+: p) := by
  induction m, p using feedList.induct with
  | case1 m a b c rest ih =>
    rcases ih (by simpa [feedList] using h) with h1 | h1
    · rw [getList_mapPush] at h1
      by_cases hk : k = [a, b]
      · rw [if_pos hk] at h1
        rcases List.mem_append.mp h1 with h2 | h2
        · exact Or.inl h2
        · right
          refine ⟨by simp [hk], ?_⟩
          have ht : t = c := by simpa using h2
          subst ht hk
          exact ⟨[], rest, rfl⟩
      · exact Or.inl (by rwa [if_neg hk] at h1)
    · exact Or.inr ⟨h1.1, List.infix_cons h1.2⟩
  | case2 p m hp =>
    left
    have : feedList m p = m := by
      cases p with
      | nil => rfl
      | cons a q =>
        cases q with
        | nil => rfl
        | cons b q2 =>
          cases q2 with
          | nil => rfl
          | cons c rest => exact absurd rfl (hp a b c rest)
    rwa [this] at h

lemma mem_getList_feed (text : String) (m : MarkovMap) (k : Key) (t : String)
    (h : t ∈ getList (feed m text) k) :
    t ∈ getList m k ∨ (k.length = 2 ∧ (k ++ [t]) <:+: padded (jsWsTokens text)) := by
  unfold feed at h
  by_cases hw : jsWsTokens text = []
  · simp only [hw, if_pos rfl] at h
    exact Or.inl h
  · simp only [if_neg hw] at h
    exact mem_getList_feedList m _ k t h

lemma mem_getList_foldl_feed (texts : List String) (m : MarkovMap) (k : Key) (t : String)
    (h : t ∈ getList (texts.foldl feed m) k) :
    t ∈ getList m k ∨
      ∃ text ∈ texts, k.length = 2 ∧ (k ++ [t]) <:+: padded (jsWsTokens text) := by
  induction texts generalizing m with
  | nil => exact Or.inl h
  | cons text rest ih =>
    rcases ih (feed m text) (by simpa using h) with h1 | h1
    · rcases mem_getList_feed text m k t h1 with h2 | h2
      · exact Or.inl h2
      · exact Or.inr ⟨text, List.mem_cons_self _ _, h2⟩
    · obtain ⟨tx, htx, h2⟩ := h1
      exact Or.inr ⟨tx, List.mem_cons_of_mem _ htx, h2⟩

lemma buildMap_eq_foldl (intents : List (String × Intent)) (m : MarkovMap) :
    intents.foldl
      (fun m p =>
        let m1 := p.2.examples.foldl feed m
        if p.2.examples = [] then p.2.responses.foldl feed m1 else m1)
      m
    = (intents.flatMap fun p =>
        p.2.examples ++ (if p.2.examples = [] then p.2.responses else [])).foldl feed m := by
  induction intents generalizing m with
  | nil => rfl
  | cons p rest ih =>
    rw [List.foldl_cons, List.flatMap_cons, List.foldl_append, List.foldl_append]
    by_cases he : p.2.examples = [] <;>
      simp only [he, ite_true, ite_false] <;> exact ih _

lemma mem_getList_build (brain : Brain) (k : Key) (t : String)
    (h : t ∈ getList (buildMarkovFromExamples brain).map k) :
    ∃ text ∈ trainTexts brain,
      k.length = 2 ∧ (k ++ [t]) <:+: padded (jsWsTokens text) := by
  unfold buildMarkovFromExamples at h
  rw [buildMap_eq_foldl] at h
  rcases mem_getList_foldl_feed _ [] k t h with h1 | h1
  · simp [getList, mapGet] at h1
  · exact h1

/-! ### C4 — no fabricated tokens -/

/-- C4: every next-token stored under a context key of the built model was
observed to follow exactly that order-2 context in some padded training
sequence (`^START`, tokens…, `^END`) of the Brain: the window
`context ++ [next]` occurs contiguously in the padded tokenization of one of
the fed texts. -/
theorem buildMarkov_no_fabricated_tokens (brain : Brain) (k : Key) (t : String)
    (h : t ∈ getList (buildMarkovFromExamples brain).map k) :
    ∃ text ∈ trainTexts brain, (k ++ [t]) <:+: padded (jsWsTokens text) := by
  obtain ⟨text, htext, _, hinf⟩ := mem_getList_build brain k t h
  exact ⟨text, htext, hinf⟩

/-- Witness for C4 on the greet corpus: `"there"` is stored under the context
`("^START", "hello")` and indeed occurs after it in a padded training
sequence. -/
theorem buildMarkov_no_fabricated_tokens_witness :
    "there" ∈ getList (buildMarkovFromExamples greetBrain).map ["^START", "hello"]
    ∧ ∃ text ∈ trainTexts greetBrain,
        (["^START", "hello"] ++ ["there"]) <:+: padded (jsWsTokens text) :=
  ⟨by decide,
    buildMarkov_no_fabricated_tokens greetBrain ["^START", "hello"] "there" (by decide)⟩

/-! ### C8 — which texts are fed -/

lemma build_eq_trainTexts (brain : Brain) :
    buildMarkovFromExamples brain = ⟨2, (trainTexts brain).foldl feed []⟩ := by
  unfold buildMarkovFromExamples trainTexts
  rw [buildMap_eq_foldl]

/-- A brain where intents that do have examples lose their responses. -/
def clearUnusedResponses (brain : Brain) : Brain :=
  ⟨brain.intents.map fun p =>
    (p.1, if p.2.examples = [] then p.2 else { p.2 with responses := [] })⟩

/-- A brain where an intent with no examples has its responses moved into its
examples. -/
def promoteResponses (brain : Brain) : Brain :=
  ⟨brain.intents.map fun p =>
    (p.1, if p.2.examples = [] then
        { p.2 with examples := p.2.responses, responses := [] }
      else p.2)⟩

lemma trainTexts_clearUnusedResponses (brain : Brain) :
    trainTexts (clearUnusedResponses brain) = trainTexts brain := by
  unfold trainTexts clearUnusedResponses
  induction brain.intents with
  | nil => rfl
  | cons p rest ih =>
    rw [List.map_cons, List.flatMap_cons, List.flatMap_cons, ih]
    by_cases he : p.2.examples = [] <;> simp [he]

lemma trainTexts_promoteResponses (brain : Brain) :
    trainTexts (promoteResponses brain) = trainTexts brain := by
  unfold trainTexts promoteResponses
  induction brain.intents with
  | nil => rfl
  | cons p rest ih =>
    rw [List.map_cons, List.flatMap_cons, List.flatMap_cons, ih]
    by_cases he : p.2.examples = []
    · by_cases hr : p.2.responses = [] <;> simp [he, hr]
    · simp [he]

/-- C8: the model builder feeds exactly every example of every intent, plus an
intent's responses only when that intent has zero examples: dropping the
responses of intents that do have examples does not change the built model,
and moving the responses of an example-less intent into its examples does not
change it either.  The tokenizer (`jsWsTokens`, the literal
`replace(/\s+/g, " ").trim().split(" ").filter(Boolean)` chain) discards empty
tokens. -/
theorem build_feeds_examples_responses_fallback (brain : Brain) :
    buildMarkovFromExamples (clearUnusedResponses brain) = buildMarkovFromExamples brain
    ∧ buildMarkovFromExamples (promoteResponses brain) = buildMarkovFromExamples brain
    ∧ ∀ s : String, "" ∉ jsWsTokens s := by
  refine ⟨?_, ?_, ?_⟩
  · rw [build_eq_trainTexts, build_eq_trainTexts, trainTexts_clearUnusedResponses]
  · rw [build_eq_trainTexts, build_eq_trainTexts, trainTexts_promoteResponses]
  · intro s hs
    have := List.mem_filter.mp hs
    simp at this

/-! ### C10 — sentinels never emitted -/

lemma getD_mem_or_default {α : Type} (l : List α) (n : Nat) (d : α) :
    l.getD n d ∈ l ∨ l.getD n d = d := by
  induction l generalizing n with
  | nil => right; simp [List.getD]
  | cons a rest ih =>
    cases n with
    | zero => left; simp
    | succ n =>
      rcases ih n with hm | hd
      · left; simp only [List.getD_cons_succ]; exact List.mem_cons_of_mem a hm
      · right; simpa using hd

lemma jsChoose_mem {l : List String} {r : ℚ} (h : jsChoose l r ≠ "") :
    jsChoose l r ∈ l := by
  rcases getD_mem_or_default l (jsIndex r l.length) "" with hm | hd
  · exact hm
  · exact absurd hd h

lemma genLoop_out (m : MarkovMap) (fuel : Nat) (key : Key) (rs : Nat → ℚ) (ix : Nat) :
    ∀ t ∈ (genLoop m fuel key rs ix).1,
      (∃ k, t ∈ getList m k) ∧ t ≠ "^END" ∧ t ≠ "" := by
  induction fuel generalizing key ix with
  | zero => intro t ht; simp [genLoop] at ht
  | succ fuel ih =>
    intro t ht
    unfold genLoop at ht
    cases hget : mapGet m key with
    | none => rw [hget] at ht; simp at ht
    | some choices =>
      rw [hget] at ht
      dsimp only at ht
      by_cases hc : choices = []
      · simp [hc] at ht
      · rw [if_neg hc] at ht
        by_cases hp : jsChoose choices (rs ix) = "" ∨ jsChoose choices (rs ix) = "^END"
        · simp only [if_pos hp] at ht; simp at ht
        · simp only [if_neg hp] at ht
          push_neg at hp
          rcases List.mem_cons.mp ht with h1 | h1
          · subst h1
            refine ⟨⟨key, ?_⟩, hp.2, hp.1⟩
            have := jsChoose_mem hp.1
            rw [getList, hget]
            simpa using this
          · exact ih _ _ t h1

lemma window_mem_tail {k : Key} {t : String} {ws : List String}
    (hlen : k.length = 2) (hinf : (k ++ [t]) <:+: padded ws) :
    t ∈ ws ++ ["^END"] := by
  obtain ⟨a, b, rfl⟩ := List.length_eq_two.mp hlen
  obtain ⟨pre, post, heq⟩ := hinf
  cases pre with
  | nil =>
    have : a :: b :: t :: post = "^START" :: (ws ++ ["^END"]) := by
      simpa [padded] using heq
    have h2 : b :: t :: post = ws ++ ["^END"] := (List.cons.injEq _ _ _ _).mp this |>.2
    rw [← h2]
    simp
  | cons x pre' =>
    have : x :: (pre' ++ ([a, b] ++ [t]) ++ post) = "^START" :: (ws ++ ["^END"]) := by
      simpa [padded] using heq
    have h2 : pre' ++ ([a, b] ++ [t]) ++ post = ws ++ ["^END"] :=
      (List.cons.injEq _ _ _ _).mp this |>.2
    rw [← h2]
    simp

/-- C10: when no training text of the Brain tokenizes to a literal `"^START"`
or `"^END"` word, the Markov generator never emits either sentinel: `"^END"`
stops the loop before being pushed, and `"^START"` is never stored as a
next-token because it only occupies position 0 of a padded sequence. -/
theorem generator_never_emits_sentinels (brain : Brain)
    (h : ∀ text ∈ trainTexts brain, ∀ w ∈ jsWsTokens text, w ≠ "^START" ∧ w ≠ "^END")
    (prompt : String) (maxTokens : Nat) (rs : Nat → ℚ) (ix : Nat) :
    ∀ t ∈ (generateMarkovTokens (buildMarkovFromExamples brain) prompt maxTokens rs ix).1,
      t ≠ "^START" ∧ t ≠ "^END" := by
  intro t ht
  unfold generateMarkovTokens at ht
  by_cases hm : (buildMarkovFromExamples brain).map = []
  · rw [if_pos hm] at ht; simp at ht
  · rw [if_neg hm] at ht
    obtain ⟨⟨k, hk⟩, hne, _⟩ := genLoop_out _ _ _ rs _ t ht
    obtain ⟨text, htext, hlen, hinf⟩ := mem_getList_build brain k t hk
    have hmem := window_mem_tail hlen hinf
    rcases List.mem_append.mp hmem with hw | hw
    · exact h text htext t hw
    · exact absurd (by simpa using hw) hne

/-- Witness for C10 on the greet corpus: a concrete generation emits neither
sentinel. -/
theorem generator_never_emits_sentinels_witness :
    "^START" ∉ (generateMarkovTokens greetModel "hello" 40 rzero 0).1
    ∧ "^END" ∉ (generateMarkovTokens greetModel "hello" 40 rzero 0).1 :=
  ⟨fun hmem =>
      (generator_never_emits_sentinels greetBrain (by decide) "hello" 40 rzero 0
        "^START" hmem).1 rfl,
   fun hmem =>
      (generator_never_emits_sentinels greetBrain (by decide) "hello" 40 rzero 0
        "^END" hmem).2 rfl⟩

/-! ### C1 — reload on malformed bytes -/

/-- C1 counterexample: after loading the greet corpus, a reload whose bytes do
not parse does **not** leave the live snapshot unchanged — `loadBrain`'s catch
branch resets every global, so the post-state differs from the pre-state. -/
theorem loadBrain_malformed_not_preserved :
    (loadBrain none ((loadBrain (some greetDoc) emptySt).1)).1
      ≠ (loadBrain (some greetDoc) emptySt).1 := by decide

/-- C1 amended: on malformed bytes `loadBrain` reports the failure (boolean)
but replaces the live snapshot with the empty one (empty Brain, no global
keywords, empty Markov model) instead of retaining the previous snapshot. -/
theorem loadBrain_malformed_resets (prev : St) :
    loadBrain none prev = (emptySt, true) := rfl

/-! ### C2 — intent detection with all-zero scores -/

/-- C2 counterexample: the prompt `"zzz"` matches no trigger, keyword or global
keyword of `oneIntentSt`, yet `detectIntent` does not return `"fallback"`
(the zero score of the first intent beats the initial `-1`). -/
theorem detectIntent_zero_not_fallback :
    detectIntent oneIntentSt "zzz" ≠ "fallback" := by decide

lemma foldl_detectStep_const (st : St) (t : String) (l : List (String × Intent))
    (acc : String × Int) (hacc : 0 ≤ acc.2)
    (h : ∀ p ∈ l, intentScoreFull st t p.2 = 0) :
    l.foldl (detectStep st t) acc = acc := by
  induction l generalizing acc with
  | nil => rfl
  | cons p rest ih =>
    have hp : intentScoreFull st t p.2 = 0 := h p (List.mem_cons_self p rest)
    have hstep : detectStep st t acc p = acc := by
      simp only [detectStep, hp]
      have : ¬ acc.2 < 0 := not_lt.mpr hacc
      simp [this]
    rw [List.foldl_cons, hstep]
    exact ih acc hacc (fun q hq => h q (List.mem_cons_of_mem p hq))

/-- C2 amended: when every intent scores zero against the prompt,
`detectIntent` returns the name of the *first* intent in insertion order, and
the sentinel `"fallback"` only when the Brain has no intents at all; the
result is deterministic (a pure function of the prompt and state). -/
theorem detectIntent_zero_scores_first (st : St) (prompt : String)
    (h : ∀ p ∈ st.BRAIN.intents, intentScoreFull st (jsToLower prompt) p.2 = 0) :
    detectIntent st prompt = ((st.BRAIN.intents.head?).map Prod.fst).getD "fallback" := by
  unfold detectIntent
  cases hl : st.BRAIN.intents with
  | nil => rfl
  | cons p rest =>
    have hp : intentScoreFull st (jsToLower prompt) p.2 = 0 := by
      refine h p ?_
      rw [hl]; exact List.mem_cons_self p rest
    have hstep : detectStep st (jsToLower prompt) ("fallback", (-1 : Int)) p = (p.1, 0) := by
      simp [detectStep, hp]
    rw [List.foldl_cons, hstep,
      foldl_detectStep_const st (jsToLower prompt) rest (p.1, 0) le_rfl
        (fun q hq => h q (by rw [hl]; exact List.mem_cons_of_mem p hq))]
    rfl

/-- Witness for the C2 amended theorem at `oneIntentSt` and prompt `"zzz"`. -/
theorem detectIntent_zero_scores_first_witness :
    (∀ p ∈ oneIntentSt.BRAIN.intents,
        intentScoreFull oneIntentSt (jsToLower "zzz") p.2 = 0)
    ∧ detectIntent oneIntentSt "zzz" = "greet" :=
  ⟨by decide, detectIntent_zero_scores_first oneIntentSt "zzz" (by decide)⟩

/-! ### C6 — the greet scenario -/

/-- C6: for the greet corpus with order 2, the context `("^START", "hello")`
maps to exactly the multiset `["there", "there"]` (both occurrences retained),
and a generation step whose current context is that key can only emit
`"there"`, for every legal random draw. -/
theorem greet_context_start_hello :
    getList greetModel.map ["^START", "hello"] = ["there", "there"]
    ∧ ∀ r : ℚ, 0 ≤ r → r < 1 →
        jsChoose (getList greetModel.map ["^START", "hello"]) r = "there" := by
  have hl : getList greetModel.map ["^START", "hello"] = ["there", "there"] := by decide
  refine ⟨hl, ?_⟩
  intro r h0 h1
  rw [hl]
  unfold jsChoose jsIndex
  have hlen : (["there", "there"] : List String).length = 2 := rfl
  rw [hlen]
  have hr2 : (0 : ℚ) ≤ r * (2 : ℕ) := by
    push_cast
    nlinarith
  have hlt : r * ((2 : ℕ) : ℚ) < ((2 : ℤ) : ℚ) := by
    push_cast
    nlinarith
  have hfl0 : 0 ≤ ⌊r * ((2 : ℕ) : ℚ)⌋ := Int.floor_nonneg.mpr hr2
  have hfl2 : ⌊r * ((2 : ℕ) : ℚ)⌋ < 2 := Int.floor_lt.mpr hlt
  have h01 : Int.toNat ⌊r * ((2 : ℕ) : ℚ)⌋ = 0 ∨ Int.toNat ⌊r * ((2 : ℕ) : ℚ)⌋ = 1 := by
    omega
  rcases h01 with h | h <;> rw [h] <;> rfl

/-- Witness for C6 at the draw `1/2`. -/
theorem greet_context_start_hello_witness :
    ((0 : ℚ) ≤ 1 / 2 ∧ (1 : ℚ) / 2 < 1)
    ∧ jsChoose (getList greetModel.map ["^START", "hello"]) (1 / 2) = "there" :=
  ⟨⟨by norm_num, by norm_num⟩,
    greet_context_start_hello.2 (1 / 2) (by norm_num) (by norm_num)⟩

/-! ### C5 — seeding of the Markov generators -/

lemma jsIndex_lt {r : ℚ} {n : Nat} (_h0 : 0 ≤ r) (h1 : r < 1) (hn : 0 < n) :
    jsIndex r n < n := by
  unfold jsIndex
  have hnq : (0 : ℚ) < n := by exact_mod_cast hn
  have hlt : r * (n : ℚ) < ((n : ℤ) : ℚ) := by
    push_cast
    nlinarith
  have hfl : ⌊r * (n : ℚ)⌋ < (n : ℤ) := Int.floor_lt.mpr hlt
  omega

lemma getD_mem_of_lt {α : Type} {l : List α} {n : Nat} {d : α} (h : n < l.length) :
    l.getD n d ∈ l := by
  induction l generalizing n with
  | nil => simp at h
  | cons a rest ih =>
    cases n with
    | zero => simp
    | succ n =>
      simp only [List.getD_cons_succ]
      exact List.mem_cons_of_mem a (ih (by simpa using h))

lemma jsChooseKey_mem {l : List Key} {r : ℚ} (h0 : 0 ≤ r) (h1 : r < 1)
    (hne : l ≠ []) : jsChooseKey l r ∈ l :=
  getD_mem_of_lt (jsIndex_lt h0 h1 (List.length_pos.mpr hne))

/-- C5 counterexample, on the pipeline server's generator: for the prompt
`"xx yy"` against the greet model, the exact context `["xx", "yy"]` is absent
from the map and `^START`-prefixed contexts exist, yet the selected start key
is `["xx", "yy"]` itself — not a `^START`-prefixed one — and the generation
output is empty instead of a continuation from a `^START` context. -/
theorem markov_seed_no_fallback :
    startKey002 greetModel.map greetModel.order (jsWsTokens "xx yy") (rzero 0) = ["xx", "yy"]
    ∧ mapGet greetModel.map ["xx", "yy"] = none
    ∧ startKeys002 greetModel.map ≠ []
    ∧ keyStartsWithStart ["xx", "yy"] = false
    ∧ (generateMarkov greetModel "xx yy" 40 rzero 0).1 = "" := by decide

/-- C5 amended: the described seeding holds with the membership fallback split
between the two generators.  (1) The pipeline server's generator seeds from
the prompt's last `order` tokens whenever the prompt has at least `order`
tokens, with no membership check (so an unseen context is used as-is).
(2)–(3) The Turbo-V3 generator seeds from the last `order` tokens only when
that context is present, and otherwise falls back to a random
`^START`-prefixed context.  (4)–(5) In both generators, a prompt with fewer
than `order` tokens starts from a random `^START`-prefixed context when one
exists. -/
theorem markov_seeding_behavior :
    (∀ (m : MarkovMap) (order : Nat) (tokens : List String) (r : ℚ),
        order ≤ tokens.length →
        startKey002 m order tokens r = tokens.drop (tokens.length - order))
    ∧ (∀ (m : MarkovMap) (order : Nat) (tokens : List String) (r : ℚ),
        order ≤ tokens.length →
        (mapGet m (tokens.drop (tokens.length - order))).isSome = true →
        startKeyV3 m order tokens r = tokens.drop (tokens.length - order))
    ∧ (∀ (m : MarkovMap) (order : Nat) (tokens : List String) (r : ℚ),
        order ≤ tokens.length →
        mapGet m (tokens.drop (tokens.length - order)) = none →
        startKeysV3 m ≠ [] → 0 ≤ r → r < 1 →
        startKeyV3 m order tokens r ∈ startKeysV3 m)
    ∧ (∀ (m : MarkovMap) (order : Nat) (tokens : List String) (r : ℚ),
        tokens.length < order → startKeys002 m ≠ [] → 0 ≤ r → r < 1 →
        startKey002 m order tokens r ∈ startKeys002 m)
    ∧ (∀ (m : MarkovMap) (order : Nat) (tokens : List String) (r : ℚ),
        tokens.length < order → startKeysV3 m ≠ [] → 0 ≤ r → r < 1 →
        startKeyV3 m order tokens r ∈ startKeysV3 m) := by
  refine ⟨?_, ?_, ?_, ?_, ?_⟩
  · intro m order tokens r h
    unfold startKey002
    rw [if_pos h]
  · intro m order tokens r h hsome
    unfold startKeyV3
    rw [if_pos h]
    dsimp only
    rw [if_pos hsome]
  · intro m order tokens r h hnone hsk h0 h1
    unfold startKeyV3
    rw [if_pos h]
    dsimp only
    rw [hnone]
    simp only [Option.isSome_none, Bool.false_eq_true, if_false, if_pos hsk]
    exact jsChooseKey_mem h0 h1 hsk
  · intro m order tokens r h hsk h0 h1
    unfold startKey002
    rw [if_neg (not_le.mpr h)]
    dsimp only
    rw [if_pos hsk]
    exact jsChooseKey_mem h0 h1 hsk
  · intro m order tokens r h hsk h0 h1
    unfold startKeyV3
    rw [if_neg (not_le.mpr h), if_pos hsk]
    exact jsChooseKey_mem h0 h1 hsk

/-- Witness for the C5 amended theorem: parts (1) and (3) at the greet model
and tokens `["xx", "yy"]`, part (2) at the seen context `["hello", "there"]`,
and parts (4) and (5) at the single token `["hello"]`. -/
theorem markov_seeding_behavior_witness :
    startKey002 greetModel.map 2 ["xx", "yy"] 0 = ["xx", "yy"]
    ∧ startKeyV3 greetModel.map 2 ["hello", "there"] 0 = ["hello", "there"]
    ∧ startKeyV3 greetModel.map 2 ["xx", "yy"] 0 ∈ startKeysV3 greetModel.map
    ∧ startKey002 greetModel.map 2 ["hello"] 0 ∈ startKeys002 greetModel.map
    ∧ startKeyV3 greetModel.map 2 ["hello"] 0 ∈ startKeysV3 greetModel.map :=
  ⟨markov_seeding_behavior.1 greetModel.map 2 ["xx", "yy"] 0 (by decide),
   markov_seeding_behavior.2.1 greetModel.map 2 ["hello", "there"] 0 (by decide)
     (by decide),
   markov_seeding_behavior.2.2.1 greetModel.map 2 ["xx", "yy"] 0 (by decide) (by decide)
     (by decide) (by norm_num) (by norm_num),
   markov_seeding_behavior.2.2.2.1 greetModel.map 2 ["hello"] 0 (by decide) (by decide)
     (by norm_num) (by norm_num),
   markov_seeding_behavior.2.2.2.2 greetModel.map 2 ["hello"] 0 (by decide) (by decide)
     (by norm_num) (by norm_num)⟩

/-! ### C7 — novelty dominates jitter -/

/-- C7: with equal keyword overlap and equal length preference, a candidate
whose text contains the full trimmed prompt (novelty flag 0) never receives a
higher score than one whose text does not (novelty flag 1), for every pair of
jitter draws in [0, 1) (jitter values in [0, 0.2)). -/
theorem novelty_zero_never_outranks (st : St) (c0 c1 prompt intentName : String)
    (r0 r1 : ℚ) (_hr0 : 0 ≤ r0) (hr0' : r0 < 1) (hr1 : 0 ≤ r1) (_hr1' : r1 < 1)
    (hkw : kwScoreOf st intentName c0 = kwScoreOf st intentName c1)
    (hlen : lengthScoreOf c0 = lengthScoreOf c1)
    (hn0 : noveltyScoreOf c0 prompt = 0)
    (hn1 : noveltyScoreOf c1 prompt = 1) :
    scoreCandidate st c0 prompt intentName r0 ≤ scoreCandidate st c1 prompt intentName r1 := by
  unfold scoreCandidate
  rw [hkw, hlen, hn0, hn1]
  nlinarith

/-- Witness for C7: equal-length, zero-keyword candidates where the first
echoes the prompt and the second does not. -/
theorem novelty_zero_never_outranks_witness :
    (noveltyScoreOf "one two three four five six seven"
        "one two three four five six seven" = 0
      ∧ noveltyScoreOf "uno dos tres cuatro cinco seis siete"
        "one two three four five six seven" = 1)
    ∧ scoreCandidate emptySt "one two three four five six seven"
        "one two three four five six seven" "fallback" 0
      ≤ scoreCandidate emptySt "uno dos tres cuatro cinco seis siete"
        "one two three four five six seven" "fallback" 0 :=
  ⟨⟨by decide, by decide⟩,
   novelty_zero_never_outranks emptySt "one two three four five six seven"
     "uno dos tres cuatro cinco seis siete" "one two three four five six seven"
     "fallback" 0 0 (by norm_num) (by norm_num) (by norm_num) (by norm_num)
     (by decide)
     (by
       have h1 : (wsSplit "one two three four five six seven").length = 7 := by decide
       have h2 : (wsSplit "uno dos tres cuatro cinco seis siete").length = 7 := by decide
       unfold lengthScoreOf
       rw [h1, h2])
     (by decide) (by decide)⟩

/-! ### C3 — empty corpus generation -/

lemma mem_insertDesc {x a : Scored} {l : List Scored} :
    a ∈ insertDesc x l ↔ a = x ∨ a ∈ l := by
  induction l with
  | nil => simp [insertDesc]
  | cons y rest ih =>
    unfold insertDesc
    by_cases hy : x.score < y.score
    · rw [if_pos hy]
      simp only [List.mem_cons, ih]
      tauto
    · rw [if_neg hy]
      simp

lemma length_sortDesc (l : List Scored) : (sortDesc l).length = l.length := by
  induction l with
  | nil => rfl
  | cons x rest ih =>
    have hlen : ∀ (y : Scored) (m : List Scored),
        (insertDesc y m).length = m.length + 1 := by
      intro y m
      induction m with
      | nil => rfl
      | cons z q ihq =>
        unfold insertDesc
        by_cases hz : y.score < z.score
        · rw [if_pos hz]
          simp [ihq]
        · rw [if_neg hz]
          simp
    simp [sortDesc, hlen, ih]

lemma mem_sortDesc {a : Scored} {l : List Scored} (h : a ∈ sortDesc l) : a ∈ l := by
  induction l with
  | nil => simp [sortDesc] at h
  | cons x rest ih =>
    unfold sortDesc at h
    rcases mem_insertDesc.mp h with h1 | h1
    · simp [h1]
    · exact List.mem_cons_of_mem x (ih h1)

lemma scoreAll_texts (st : St) (prompt intent : String) (cands : List Cand)
    (rs : Nat → ℚ) (ix : Nat) :
    ((scoreAll st prompt intent cands rs ix).1).map Scored.text = cands.map Prod.snd := by
  induction cands generalizing ix with
  | nil => rfl
  | cons c rest ih => simp [scoreAll, ih]

/-- The chosen text of the pipeline when every scored candidate has the same
text `T`. -/
lemma chosen_of_uniform_text (l : List Scored) (T : String) (hne : l ≠ [])
    (hall : ∀ x ∈ l, x.text = T) :
    ((((sortDesc l).take 4).map fun s =>
        ({ label := s.label, text := s.text, score := round3 s.score } : Scored)).head?.map
      Scored.text).getD "" = T := by
  cases hs : sortDesc l with
  | nil =>
    exfalso
    have := length_sortDesc l
    rw [hs] at this
    exact hne (List.length_eq_zero.mp this.symm)
  | cons h tl =>
    have hmem : h ∈ l := mem_sortDesc (by rw [hs]; exact List.mem_cons_self h tl)
    have : h.text = T := hall h hmem
    simp [this]

/-- A zero-intent snapshot with no global keywords: any `RAW`, an intent-less
Brain, an empty global keyword map and the (empty) model built from that
Brain. -/
def zeroIntentSt (raw : Option RawDoc) : St :=
  { RAW := raw, BRAIN := { intents := [] }, GLOBAL_KEYWORDS := [],
    MARKOV := { order := 2, map := [] } }

set_option maxHeartbeats 2000000 in
/-- The chosen reply of the pipeline on any zero-intent, zero-global-keyword
snapshot, for every prompt, token budget and random stream. -/
lemma chosen_zero_intent (raw : Option RawDoc) (prompt : String) (maxTokens : Nat)
    (rs : Nat → ℚ) (ix : Nat) :
    ((createAndRankCandidates (zeroIntentSt raw) prompt maxTokens rs ix).1).chosen
      = "Let me think about " ++ prompt := by
  have happly := chosen_of_uniform_text
    ((scoreAll (zeroIntentSt raw) prompt "fallback"
        [("filler", "Let me think about " ++ prompt),
         ("filler", "Let me think about " ++ prompt),
         ("filler", "Let me think about " ++ prompt),
         ("filler", "Let me think about " ++ prompt)] rs (ix + 4)).1)
    ("Let me think about " ++ prompt) ?ne ?all
  · exact happly
  case ne =>
    intro hnil
    have := congrArg List.length (scoreAll_texts (zeroIntentSt raw) prompt "fallback"
      [("filler", "Let me think about " ++ prompt),
       ("filler", "Let me think about " ++ prompt),
       ("filler", "Let me think about " ++ prompt),
       ("filler", "Let me think about " ++ prompt)] rs (ix + 4)).symm
    rw [hnil] at this
    simp at this
  case all =>
    intro x hx
    have hmap := scoreAll_texts (zeroIntentSt raw) prompt "fallback"
      [("filler", "Let me think about " ++ prompt),
       ("filler", "Let me think about " ++ prompt),
       ("filler", "Let me think about " ++ prompt),
       ("filler", "Let me think about " ++ prompt)] rs (ix + 4)
    have hx2 : x.text ∈ (((scoreAll (zeroIntentSt raw) prompt "fallback"
        [("filler", "Let me think about " ++ prompt),
         ("filler", "Let me think about " ++ prompt),
         ("filler", "Let me think about " ++ prompt),
         ("filler", "Let me think about " ++ prompt)] rs (ix + 4)).1).map Scored.text) :=
      List.mem_map_of_mem Scored.text hx
    rw [hmap] at hx2
    simpa using hx2

/-- C3 counterexample: with a corpus of zero intents the reply is not one fixed
string — it embeds the prompt, so two prompts give two different replies. -/
theorem generate_empty_brain_prompt_dependent :
    ((createAndRankCandidates emptySt "alpha" 80 rzero 0).1).chosen
      ≠ ((createAndRankCandidates emptySt "beta" 80 rzero 0).1).chosen := by
  have h1 : ((createAndRankCandidates emptySt "alpha" 80 rzero 0).1).chosen
      = "Let me think about " ++ "alpha" := chosen_zero_intent none "alpha" 80 rzero 0
  have h2 : ((createAndRankCandidates emptySt "beta" 80 rzero 0).1).chosen
      = "Let me think about " ++ "beta" := chosen_zero_intent none "beta" 80 rzero 0
  rw [h1, h2]
  decide

/-- C3 amended: for every snapshot whose Brain has zero intents (hence a Markov
model with zero transitions) and whose global keyword map is also empty, the
pipeline neither throws nor loops: all four generators return empty strings,
the filler loop synthesizes four candidates, and the chosen reply is the
apology-style string `"Let me think about " ++ prompt` — which embeds the
prompt rather than being one fixed string — for every prompt, token budget and
random stream.  (A zero-intent corpus with non-empty global keywords instead
gets a non-empty `templateJoiner` candidate, so the restriction is
necessary.) -/
theorem generate_empty_brain_apology (st : St)
    (hb : st.BRAIN.intents = []) (hg : st.GLOBAL_KEYWORDS = [])
    (hm : st.MARKOV = buildMarkovFromExamples st.BRAIN)
    (prompt : String) (maxTokens : Nat) (rs : Nat → ℚ) (ix : Nat) :
    ((createAndRankCandidates st prompt maxTokens rs ix).1).chosen
      = "Let me think about " ++ prompt := by
  obtain ⟨raw, b, gk, mk⟩ := st
  obtain ⟨ints⟩ := b
  dsimp only at hb hg hm
  subst hb hg hm
  exact chosen_zero_intent raw prompt maxTokens rs ix

/-- Witness for the C3 amended theorem at the empty snapshot and a concrete
prompt. -/
theorem generate_empty_brain_apology_witness :
    (emptySt.BRAIN.intents = [] ∧ emptySt.GLOBAL_KEYWORDS = []
      ∧ emptySt.MARKOV = buildMarkovFromExamples emptySt.BRAIN)
    ∧ ((createAndRankCandidates emptySt "alpha" 80 rzero 0).1).chosen
        = "Let me think about " ++ "alpha" :=
  ⟨⟨rfl, rfl, rfl⟩,
    generate_empty_brain_apology emptySt rfl rfl rfl "alpha" 80 rzero 0⟩

/-! ### C9 — reload idempotence -/

/-- C9: reloading the same parsed document (byte-identical content parses
identically) twice in a row produces a structurally equal Markov model: the
build is a pure function of the document and ignores the previous state. -/
theorem reload_idempotent_model (doc : RawDoc) (s0 : St) :
    ((loadBrain (some doc) ((loadBrain (some doc) s0).1)).1).MARKOV
      = ((loadBrain (some doc) s0).1).MARKOV := rfl

end CubeAI
